import Mathlib

/-!
Verification of `seqlog/structured_logging.py` (the structured-logging /
Seq-publishing module).  Python values, dictionaries and the relevant
functions are shallowly embedded below; every definition is translated
directly from the source module.  Python dictionaries are modelled as
association lists with unique keys and insertion order, which is exactly
the observable behaviour of `dict` for the operations the module uses
(item lookup, item assignment, `in`, iteration in insertion order).
-/

namespace Seqlog

/-- Python values as they occur in log properties and format arguments:
`None`, booleans, integers, text strings, byte strings, and a stand-in
constructor for any other Python object (containers, user objects, ...),
identified by an opaque tag.  `_encode_bytes_if_required` only ever
distinguishes `bytes` from everything else, so this granularity is
faithful. -/
inductive Value where
  | null : Value
  | bool (b : Bool) : Value
  | int (n : Int) : Value
  | str (s : String) : Value
  | bytes (bs : List Nat) : Value
  | obj (tag : Nat) : Value
deriving DecidableEq, Repr, Inhabited

/-- Whether a value is a Python `bytes` object (`isinstance(data, bytes)`). -/
def isBytesValue : Value → Bool
  | .bytes _ => true
  | _ => false

/-! ## Python dictionaries as association lists -/

/-- Dictionary lookup (`d[k]` / `d.get(k)`), returning the value stored at
the first matching key.  Dictionaries built by `dictSet` keep keys unique. -/
def dictLookup (d : List (String × Value)) (k : String) : Option Value :=
  match d with
  | [] => none
  | (k', v) :: rest => if k' = k then some v else dictLookup rest k

/-- Membership test (`k in d`). -/
def dictHasKey (d : List (String × Value)) (k : String) : Bool :=
  d.any (fun kv => kv.1 = k)

/-- Item assignment (`d[k] = v`): overwrite in place when the key is
present (keeping its position, as CPython dicts do), else append. -/
def dictSet (d : List (String × Value)) (k : String) (v : Value) : List (String × Value) :=
  if d.any (fun kv => kv.1 = k) then
    d.map (fun kv => if kv.1 = k then (k, v) else kv)
  else
    d ++ [(k, v)]

/-! ## UTF-8 decoding (`bytes.decode('utf8')`)

Strict UTF-8 decoding as CPython performs it: continuation bytes are
`0x80..0xBF`, overlong encodings, surrogates (`U+D800..U+DFFF`) and code
points above `U+10FFFF` are rejected.  Returns `none` exactly when CPython
raises `UnicodeDecodeError`. -/

/-- Is `b` a UTF-8 continuation byte? -/
def isUtf8Cont (b : Nat) : Bool := 0x80 ≤ b && b ≤ 0xBF

/-- Strict UTF-8 decoder on byte lists, producing the decoded characters. -/
def utf8Decode : List Nat → Option (List Char)
  | [] => some []
  | b0 :: rest =>
    if b0 < 0x80 then
      match utf8Decode rest with
      | some cs => some (Char.ofNat b0 :: cs)
      | none => none
    else if 0xC2 ≤ b0 ∧ b0 ≤ 0xDF then
      match rest with
      | b1 :: rest2 =>
        if isUtf8Cont b1 then
          match utf8Decode rest2 with
          | some cs => some (Char.ofNat ((b0 - 0xC0) * 64 + (b1 - 0x80)) :: cs)
          | none => none
        else none
      | [] => none
    else if 0xE0 ≤ b0 ∧ b0 ≤ 0xEF then
      match rest with
      | b1 :: b2 :: rest3 =>
        if (if b0 = 0xE0 then 0xA0 ≤ b1 && b1 ≤ 0xBF
            else if b0 = 0xED then 0x80 ≤ b1 && b1 ≤ 0x9F
            else isUtf8Cont b1) && isUtf8Cont b2 then
          match utf8Decode rest3 with
          | some cs =>
            some (Char.ofNat ((b0 - 0xE0) * 4096 + (b1 - 0x80) * 64 + (b2 - 0x80)) :: cs)
          | none => none
        else none
      | _ => none
    else if 0xF0 ≤ b0 ∧ b0 ≤ 0xF4 then
      match rest with
      | b1 :: b2 :: b3 :: rest4 =>
        if (if b0 = 0xF0 then 0x90 ≤ b1 && b1 ≤ 0xBF
            else if b0 = 0xF4 then 0x80 ≤ b1 && b1 ≤ 0x8F
            else isUtf8Cont b1) && isUtf8Cont b2 && isUtf8Cont b3 then
          match utf8Decode rest4 with
          | some cs =>
            some (Char.ofNat
              ((b0 - 0xF0) * 262144 + (b1 - 0x80) * 4096 + (b2 - 0x80) * 64 + (b3 - 0x80)) :: cs)
          | none => none
        else none
      | _ => none
    else none

/-- Python `bytes.decode('utf8')` as a `String`-producing function. -/
def utf8DecodeBytes (bs : List Nat) : Option String :=
  (utf8Decode bs).map fun cs => String.mk cs

/-! ## Base64 (`base64.encodebytes` / RFC 2045 decoding)

`base64.encodebytes` emits standard-alphabet base64 broken into
76-character lines, each line (including the last) terminated by `'\n'`;
decoding discards any character outside the base64 alphabet (this is how
`base64.decodebytes` / `binascii.a2b_base64` treat newlines and padding). -/

/-- The standard base64 alphabet. -/
def b64Alphabet : List Char :=
  "ABCDEFGHIJKLMNOPQRSTUVWXYZabcdefghijklmnopqrstuvwxyz0123456789+/".data

/-- The alphabet character for a 6-bit group. -/
def b64CharOf (n : Nat) : Char := b64Alphabet.getD n 'A'

/-- Whether a character belongs to the base64 alphabet. -/
def b64IsAlphaChar (c : Char) : Bool := b64Alphabet.contains c

/-- The 6-bit value of an alphabet character. -/
def b64ValueOf (c : Char) : Nat := b64Alphabet.indexOf c

/-- Split a byte list into 6-bit groups, three bytes becoming four
sextets; a trailing group of one or two bytes becomes two or three
sextets (the bits that would be covered by `'='` padding). -/
def toSextets : List Nat → List Nat
  | [] => []
  | [a] => [a / 4, a % 4 * 16]
  | [a, b] => [a / 4, a % 4 * 16 + b / 16, b % 16 * 4]
  | a :: b :: c :: rest =>
    a / 4 :: (a % 4 * 16 + b / 16) :: (b % 16 * 4 + c / 64) :: c % 64 :: toSextets rest

/-- Reassemble bytes from 6-bit groups (inverse direction of `toSextets`). -/
def fromSextets : List Nat → List Nat
  | s0 :: s1 :: s2 :: s3 :: rest =>
    (s0 * 4 + s1 / 16) :: (s1 % 16 * 16 + s2 / 4) :: (s2 % 4 * 64 + s3) :: fromSextets rest
  | [s0, s1, s2] => [s0 * 4 + s1 / 16, s1 % 16 * 16 + s2 / 4]
  | [s0, s1] => [s0 * 4 + s1 / 16]
  | _ => []

/-- The raw base64 characters of a byte list, before padding and wrapping. -/
def b64EncodeCore (bs : List Nat) : List Char := (toSextets bs).map b64CharOf

/-- The `'='` padding appended for a final group of one or two bytes. -/
def b64Pad (len : Nat) : List Char :=
  if len % 3 = 1 then ['=', '=']
  else if len % 3 = 2 then ['=']
  else []

/-- Break a character stream into 76-character lines, each line terminated
by a newline (the `base64.encodebytes` layout for non-empty input). -/
def wrap76 (cs : List Char) : List Char :=
  if cs.length ≤ 76 then cs ++ ['\n']
  else cs.take 76 ++ '\n' :: wrap76 (cs.drop 76)
termination_by cs.length
decreasing_by simp only [List.length_drop]; omega

/-- Python `base64.encodebytes(bs).decode('ascii')`. -/
def b64EncodeBytes (bs : List Nat) : String :=
  if bs = [] then "" else String.mk (wrap76 (b64EncodeCore bs ++ b64Pad bs.length))

/-- Python `base64.decodebytes`: characters outside the alphabet (newlines,
padding) are discarded, the rest are decoded as 6-bit groups. -/
def b64DecodeString (s : String) : List Nat :=
  fromSextets ((s.data.filter b64IsAlphaChar).map b64ValueOf)

/-! ## `_encode_bytes_if_required` -/

/-- The source's `_encode_bytes_if_required(data)`: `bytes` are decoded as UTF-8 when
possible, else Base64-encoded to an ASCII string; any non-`bytes` value is
returned unchanged. -/
def encodeBytesIfRequired (data : Value) : Value :=
  match data with
  | .bytes bs =>
    match utf8DecodeBytes bs with
    | some s => .str s
    | none => .str (b64EncodeBytes bs)
  | v => v

/-! ## Python `str()` and `repr()` of the modelled values -/

/-- Lower-case hexadecimal digit. -/
def hexDigit (n : Nat) : Char := "0123456789abcdef".data.getD n '0'

/-- One byte of a `bytes` repr, escaped as CPython does inside quote
character `q`: backslash, the quote, tab, newline, carriage return get a
backslash escape, other printable ASCII is literal, the rest is `\xHH`. -/
def byteEscape (q : Char) (b : Nat) : List Char :=
  if b = 92 then ['\\', '\\']
  else if b = q.toNat then ['\\', q]
  else if b = 9 then ['\\', 't']
  else if b = 10 then ['\\', 'n']
  else if b = 13 then ['\\', 'r']
  else if 32 ≤ b ∧ b < 127 then [Char.ofNat b]
  else ['\\', 'x', hexDigit (b / 16), hexDigit (b % 16)]

/-- CPython `repr()` of a `bytes` object (`b'...'`); CPython uses double quotes
when the content has a single quote but no double quote. -/
def bytesRepr (bs : List Nat) : String :=
  let q : Char := if bs.contains 39 ∧ ¬ bs.contains 34 then Char.ofNat 34 else Char.ofNat 39
  String.mk ('b' :: q :: ((bs.map (byteEscape q)).flatten ++ [q]))

/-- Python `str()` of a modelled value (as used by `%s` and `str.format`).
The string for an opaque object stands in for its default `repr`. -/
def strOfValue : Value → String
  | .null => "None"
  | .bool true => "True"
  | .bool false => "False"
  | .int n => toString n
  | .str s => s
  | .bytes bs => bytesRepr bs
  | .obj tag => "<object " ++ toString tag ++ ">"

/-- The text `%d`/`%i` produces for a value, when the value is acceptable
as an integer (Python converts `bool` to `0`/`1`, rejects the rest). -/
def intReprOfValue : Value → Option String
  | .int n => some (toString n)
  | .bool true => some "1"
  | .bool false => some "0"
  | _ => none

/-! ## `msg % args` (old-style positional formatting)

The conversions the logging call sites use: `%s`, `%d`/`%i`, `%%`.
`none` models the `TypeError` CPython raises for a malformed format, a
missing argument, or arguments left over after the template is consumed. -/

/-- Formatting core over character lists. -/
def percentFormat : List Char → List Value → Option (List Char)
  | [], args => if args = [] then some [] else none
  | c :: rest, args =>
    if c = '%' then
      match rest with
      | [] => none
      | c2 :: rest2 =>
        if c2 = '%' then (percentFormat rest2 args).map (fun t => '%' :: t)
        else if c2 = 's' then
          match args with
          | a :: args2 => (percentFormat rest2 args2).map (fun t => (strOfValue a).data ++ t)
          | [] => none
        else if c2 = 'd' ∨ c2 = 'i' then
          match args with
          | a :: args2 =>
            match intReprOfValue a with
            | some s => (percentFormat rest2 args2).map (fun t => s.data ++ t)
            | none => none
          | [] => none
        else none
    else (percentFormat rest args).map (fun t => c :: t)

/-- Python `msg % args` on strings. -/
def pyPercentFormat (msg : String) (args : List Value) : Option String :=
  (percentFormat msg.data args).map String.mk

/-! ## `msg.format(**props)` (new-style named formatting)

The modelled subset: replacement fields are bare keyword names (no
conversion `!r` and no format specification `:spec`), which is the shape
the module's named-property templates use.  The outcomes mirror CPython's
exception classes: `keyErr` for a missing keyword (`KeyError`), `idxErr`
for a positional/auto-numbered field with no positional arguments
(`IndexError`), `valErr` for malformed brace syntax (`ValueError`). -/

inductive FormatResult where
  | ok (cs : List Char)
  | keyErr (k : String)
  | idxErr
  | valErr
deriving DecidableEq, Repr

/-- Opening brace character (written via its code point). -/
def lbrace : Char := Char.ofNat 123

/-- Closing brace character (written via its code point). -/
def rbrace : Char := Char.ofNat 125

/-- ASCII digit test. -/
def isDigitChar (c : Char) : Bool := '0' ≤ c && c ≤ '9'

/-- Python `template.format(**props)` over character lists, structurally
recursive on a fuel argument (every step consumes at least one template
character, so fuel equal to the template length never runs out).  A
replacement field's name is everything up to the closing brace. -/
def formatFieldsGo : Nat → List Char → List (String × Value) → FormatResult
  | _, [], _ => .ok []
  | 0, _ :: _, _ => .valErr
  | fuel + 1, c :: rest, props =>
    if c = lbrace then
      match rest with
      | [] => .valErr
      | c2 :: rest2 =>
        if c2 = lbrace then
          match formatFieldsGo fuel rest2 props with
          | .ok t => .ok (lbrace :: t)
          | e => e
        else
          let nameChars := (c2 :: rest2).takeWhile (fun x => x ≠ rbrace)
          match (c2 :: rest2).dropWhile (fun x => x ≠ rbrace) with
          | [] => .valErr
          | _ :: rest3 =>
            if nameChars = [] ∨ nameChars.all isDigitChar then .idxErr
            else
              match dictLookup props (String.mk nameChars) with
              | some v =>
                match formatFieldsGo fuel rest3 props with
                | .ok t => .ok ((strOfValue v).data ++ t)
                | e => e
              | none => .keyErr (String.mk nameChars)
    else if c = rbrace then
      match rest with
      | c2 :: rest2 =>
        if c2 = rbrace then
          match formatFieldsGo fuel rest2 props with
          | .ok t => .ok (rbrace :: t)
          | e => e
        else .valErr
      | [] => .valErr
    else
      match formatFieldsGo fuel rest props with
      | .ok t => .ok (c :: t)
      | e => e

/-- Python `template.format(**props)` over character lists. -/
def formatFields (cs : List Char) (props : List (String × Value)) : FormatResult :=
  formatFieldsGo cs.length cs props

/-! ## Log records

`StructuredLogRecord` extends `logging.LogRecord` with a `log_props`
dictionary; whether a record is a `StructuredLogRecord` is the
`structured` flag.  Exception state per the source: `exc_info` is either
absent (`None`), an exception tuple (its renderable payload abstracted as
a string), or a truthy non-tuple marker asking for ambient capture;
`exc_text` is the cached rendered exception. -/

inductive ExcInfo where
  | noInfo
  | tuple (info : String)
  | capture
deriving DecidableEq, Repr, Inhabited

structure LogRecord where
  name : String
  levelno : Nat
  msg : String
  args : List Value
  structured : Bool
  logProps : List (String × Value)
  excInfo : ExcInfo
  excText : Option String
deriving DecidableEq, Repr, Inhabited

/-- The source's `record.getMessage()`: with positional arguments, `self.msg %
self.args` (both record classes); a `StructuredLogRecord` without
positional arguments renders `self.msg.format(**self.log_props)` and
falls back to the raw template on any exception (the source's bare
`except:`); a plain record without arguments returns the message as is. -/
def recordGetMessage (r : LogRecord) : Option String :=
  if r.args ≠ [] then pyPercentFormat r.msg r.args
  else if r.structured then
    some (match formatFields r.msg.data r.logProps with
      | .ok t => String.mk t
      | _ => r.msg)
  else some r.msg

/-! ## Global log properties and record construction -/

/-- The source's `get_global_log_properties(logger_name)`: a fresh copy of the global
property dictionary, with `LoggerName` added when a (truthy, i.e.
non-empty) logger name is supplied.  The parameter `g` is the current
contents of `_global_log_props`. -/
def getGlobalLogProperties (g : List (String × Value)) (loggerName : String) :
    List (String × Value) :=
  if loggerName = "" then g else dictSet g "LoggerName" (.str loggerName)

/-- Keyword arguments the logging system itself understands; these are
not turned into log properties. -/
def wellKnownLoggerKwargs : List String := ["extra", "exc_info", "func", "sinfo"]

/-- The property dictionary `StructuredLogger._log` builds: a copy of the
global properties (with `LoggerName`), then each non-well-known keyword
argument assigned in order. -/
def structuredLogProps (g : List (String × Value)) (loggerName : String)
    (kwargs : List (String × Value)) : List (String × Value) :=
  kwargs.foldl
    (fun d kv => if wellKnownLoggerKwargs.contains kv.1 then d else dictSet d kv.1 kv.2)
    (getGlobalLogProperties g loggerName)

/-- The `ThreadId` step of `StructuredLogRecord.__init__`: added only for
a truthy `self.thread` (`none` models falsy) when the key is absent. -/
def addThreadId (props : List (String × Value)) (thread : Option Nat) :
    List (String × Value) :=
  match thread with
  | some t =>
    if dictHasKey props "ThreadId" then props else dictSet props "ThreadId" (.int (t : Int))
  | none => props

/-- The `ThreadName` step of `StructuredLogRecord.__init__`: added only
for a truthy (non-empty) `self.threadName` when the key is absent. -/
def addThreadName (props : List (String × Value)) (threadName : Option String) :
    List (String × Value) :=
  match threadName with
  | some tn =>
    if tn = "" then props
    else if dictHasKey props "ThreadName" then props
    else dictSet props "ThreadName" (.str tn)
  | none => props

/-- The `ThreadId` / `ThreadName` defaulting in
`StructuredLogRecord.__init__`, in source order. -/
def addThreadDefaults (props : List (String × Value)) (thread : Option Nat)
    (threadName : Option String) : List (String × Value) :=
  addThreadName (addThreadId props thread) threadName

/-- Construct a `StructuredLogRecord` carrying the given `log_props`
(after thread defaulting); `exc_text` starts unset. -/
def mkStructuredRecord (name : String) (levelno : Nat) (msg : String) (args : List Value)
    (logProps : List (String × Value)) (thread : Option Nat) (threadName : Option String)
    (excInfo : ExcInfo) : LogRecord :=
  { name := name, levelno := levelno, msg := msg, args := args, structured := true,
    logProps := addThreadDefaults logProps thread threadName,
    excInfo := excInfo, excText := none }

/-- The record a `StructuredLogger` log call produces: `_log` assembles
`log_props` from the globals and the keyword arguments, and `makeRecord`
hands them to `StructuredLogRecord`. -/
def structuredLoggerLog (g : List (String × Value)) (loggerName : String) (levelno : Nat)
    (msg : String) (args : List Value) (kwargs : List (String × Value))
    (thread : Option Nat) (threadName : Option String) (excInfo : ExcInfo) : LogRecord :=
  mkStructuredRecord loggerName levelno msg args (structuredLogProps g loggerName kwargs)
    thread threadName excInfo

/-! ## `SeqLogHandler._build_event_data` -/

/-- Python `logging.getLevelName` for the standard table, with the
`"Level %s"` fallback for unregistered levels. -/
def getLevelName (n : Nat) : String :=
  if n = 50 then "CRITICAL"
  else if n = 40 then "ERROR"
  else if n = 30 then "WARNING"
  else if n = 20 then "INFO"
  else if n = 10 then "DEBUG"
  else if n = 0 then "NOTSET"
  else "Level " ++ toString n

/-- The event dictionary posted to Seq for one record. -/
structure EventData where
  timestamp : String
  level : String
  messageTemplate : String
  properties : List (String × Value)
  exception : Option String
deriving DecidableEq, Repr

/-- The positional-argument loop of `_build_event_data`: each argument is
byte-encoded and assigned under its stringified zero-based index. -/
def addArgs (d : List (String × Value)) (i : Nat) : List Value → List (String × Value)
  | [] => d
  | a :: rest => addArgs (dictSet d (Nat.repr i) (encodeBytesIfRequired a)) (i + 1) rest

/-- Truthiness of `record.exc_text` (`None` and the empty string are
falsy). -/
def excTextTruthy : Option String → Bool
  | some t => t ≠ ""
  | none => false

/-- The exception block at the end of `_build_event_data`: reuse a cached
`exc_text`; else render a tuple `exc_info` and cache it on the record;
else, for a truthy non-tuple `exc_info`, render and cache only when an
ambient exception is active (`sys.exc_info()` non-empty).  `fmtExc` is
the handler formatter's `formatException`; `ambient` tells whether
`sys.exc_info()` reports an active exception. -/
def applyExceptionClause (fmtExc : ExcInfo → String) (ambient : Bool) (r : LogRecord)
    (ev : EventData) : EventData × LogRecord :=
  if excTextTruthy r.excText then ({ ev with exception := r.excText }, r)
  else
    match r.excInfo with
    | .tuple info =>
      let t := fmtExc (.tuple info)
      ({ ev with exception := some t }, { r with excText := some t })
    | .capture =>
      if ambient then
        let t := fmtExc .capture
        ({ ev with exception := some t }, { r with excText := some t })
      else (ev, r)
    | .noInfo => (ev, r)

/-- The source's `SeqLogHandler._build_event_data(record)`.  Returns the event data
and the record as it stands afterwards (the source mutates the record:
the named-property branch overwrites `log_props` values with their
byte-encoded form, and the exception block caches `exc_text`).  `g` is
the current contents of `_global_log_props`, `ts` the timestamp
rendering, `none` models an exception escaping from message
formatting. -/
def buildEventData (g : List (String × Value)) (ts : LogRecord → String)
    (fmtExc : ExcInfo → String) (ambient : Bool) (r : LogRecord) :
    Option (EventData × LogRecord) :=
  if r.args ≠ [] then
    match recordGetMessage r with
    | none => none
    | some m =>
      let props := addArgs (getGlobalLogProperties g r.name) 0 r.args
      some (applyExceptionClause fmtExc ambient r
        { timestamp := ts r, level := getLevelName r.levelno,
          messageTemplate := m, properties := props, exception := none })
  else if r.structured then
    let newProps := r.logProps.map (fun kv => (kv.1, encodeBytesIfRequired kv.2))
    let r2 := { r with logProps := newProps }
    some (applyExceptionClause fmtExc ambient r2
      { timestamp := ts r, level := getLevelName r.levelno,
        messageTemplate := r.msg, properties := newProps, exception := none })
  else
    match recordGetMessage r with
    | none => none
    | some m =>
      some (applyExceptionClause fmtExc ambient r
        { timestamp := ts r, level := getLevelName r.levelno,
          messageTemplate := m, properties := g, exception := none })

/-! ## `SeqLogHandler.__init__`: endpoint URL -/

/-- Python's `str.endswith(suffix)`. -/
def pyEndsWith (s suffix : String) : Bool := suffix.data.isSuffixOf s.data

/-- The endpoint URL the handler builds from the configured server URL:
a `"/"` is appended only when the URL does not already end with one, then
the fixed path `"api/events/raw"` is appended. -/
def seqServerUrl (serverUrl : String) : String :=
  (if pyEndsWith serverUrl "/" then serverUrl else serverUrl ++ "/") ++ "api/events/raw"

/-- Modelled from the claim's wording for comparison: a base URL
normalized to end with exactly one trailing slash (existing trailing
slashes collapsed), then the fixed path. -/
def specSeqServerUrl (serverUrl : String) : String :=
  String.mk ((serverUrl.data.reverse.dropWhile (fun c => c = '/')).reverse) ++ "/api/events/raw"

/-! ## `SeqLogHandler.publish_log_batch`

The HTTP session and the JSON encoder are external collaborators; they
enter the model as functions.  `serialize` is `json.dumps` with the
configured encoder class: it either yields the payload text or raises
`TypeError` (the failure mode of `json.dumps` on non-serialisable values
such as `bytes`, and the only exception class the source catches).
`post` is `session.post`: it returns a response, or raises a
`requests.RequestException` optionally carrying a response.
`response.raise_for_status()` raises exactly for status codes `>= 400`,
and — decisive for the diagnostic branch — `requests.Response.__bool__`
is `Response.ok`, i.e. a `4xx`/`5xx` response tests **falsy**. -/

/-- An HTTP response: status code and body text. -/
structure SeqResponse where
  status : Nat
  text : String
deriving DecidableEq, Repr

/-- Truthiness of a `requests.Response` (`__bool__` returns `ok`,
which is `status < 400`). -/
def responseTruthy (resp : SeqResponse) : Bool := resp.status < 400

/-- Outcome of `session.post`. -/
inductive PostOutcome where
  | response (resp : SeqResponse)
  | reqError (resp : Option SeqResponse)
deriving DecidableEq, Repr

/-- Outcome of `json.dumps` on the request body. -/
inductive SerializeResult where
  | ok (payload : String)
  | typeError
deriving DecidableEq, Repr

/-- The `sys.stderr` text written in the `requests.RequestException`
handler: the three branches test `not requestFailed.response` (which is
true both when no response is attached and when the attached response is
falsy, i.e. has status `>= 400`), then `not requestFailed.response.text`,
then print the body. -/
def transportDiagnostic : Option SeqResponse → String
  | none => "Response from Seq was unavailable.\n"
  | some resp =>
    if ¬ responseTruthy resp then "Response from Seq was unavailable.\n"
    else if resp.text = "" then "Response body from Seq was empty.\n"
    else "Response body from Seq:\n" ++ resp.text ++ "\n"

/-- Everything observable `publish_log_batch` does: the records passed to
`self.handleError` (in call order), how many `session.post` calls were
made, the lines written to `sys.stderr`, and whether an exception escaped
to the caller.  The batch is never kept and never re-enqueued, so an
outcome with no further fields models "discard, no retry". -/
structure PublishOutcome where
  handledErrors : List LogRecord
  postAttempts : Nat
  stderrLines : List String
  raised : Bool
deriving DecidableEq, Repr

/-- The source's `SeqLogHandler.publish_log_batch(batch)`. -/
def publishLogBatch (g : List (String × Value)) (ts : LogRecord → String)
    (fmtExc : ExcInfo → String) (ambient : Bool)
    (serialize : List EventData → SerializeResult) (post : String → PostOutcome)
    (batch : List LogRecord) : PublishOutcome :=
  match batch with
  | [] => { handledErrors := [], postAttempts := 0, stderrLines := [], raised := false }
  | first :: _ =>
    match batch.mapM (fun r => buildEventData g ts fmtExc ambient r) with
    | none =>
      { handledErrors := [], postAttempts := 0, stderrLines := [], raised := true }
    | some built =>
      match serialize (built.map Prod.fst) with
      | .typeError =>
        { handledErrors := batch, postAttempts := 0, stderrLines := [], raised := false }
      | .ok payload =>
        match post payload with
        | .response resp =>
          if 400 ≤ resp.status then
            { handledErrors := [first], postAttempts := 1,
              stderrLines := [transportDiagnostic (some resp)], raised := false }
          else
            { handledErrors := [], postAttempts := 1, stderrLines := [], raised := false }
        | .reqError resp =>
          { handledErrors := [first], postAttempts := 1,
            stderrLines := [transportDiagnostic resp], raised := false }

/-! ## Heap view of the property dictionaries

The module's aliasing behaviour (which dictionary object an event's
`Properties` is) is invisible to the pure value model, so the dictionary
heap is modelled explicitly for exactly that question: a heap of
dictionary cells, `_global_log_props` as a reference into it, and the
three `_build_event_data` branches reproduced at the reference level.
`set_global_log_properties` and `clear_global_log_properties` build a
**new** dictionary and rebind the global name; they never write through
the old reference. -/

/-- A heap of dictionary objects, addressed by index. -/
structure PropHeap where
  cells : List (List (String × Value))
deriving DecidableEq, Repr

/-- Dereference a dictionary. -/
def PropHeap.read (h : PropHeap) (r : Nat) : List (String × Value) := h.cells.getD r []

/-- Allocate a fresh dictionary object. -/
def PropHeap.alloc (h : PropHeap) (d : List (String × Value)) : PropHeap × Nat :=
  (⟨h.cells ++ [d]⟩, h.cells.length)

/-- Overwrite a dictionary object in place. -/
def PropHeap.write (h : PropHeap) (r : Nat) (d : List (String × Value)) : PropHeap :=
  ⟨h.cells.set r d⟩

/-- The module-level state: the heap plus the `_global_log_props`
binding. -/
structure GlobalPropsState where
  heap : PropHeap
  globalRef : Nat
deriving DecidableEq, Repr

/-- The source's `set_global_log_properties(**properties)`: builds a new dictionary
from the keyword arguments and rebinds the global name. -/
def setGlobalLogPropertiesH (st : GlobalPropsState) (props : List (String × Value)) :
    GlobalPropsState :=
  let a := st.heap.alloc props
  { heap := a.1, globalRef := a.2 }

/-- The source's `clear_global_log_properties()`: rebinds the global name to a new
empty dictionary. -/
def clearGlobalLogPropertiesH (st : GlobalPropsState) : GlobalPropsState :=
  let a := st.heap.alloc []
  { heap := a.1, globalRef := a.2 }

/-- A record in the heap view: its `log_props` is a dictionary object of
its own (`StructuredLogRecord` allocates it at construction time). -/
structure HeapRecord where
  name : String
  args : List Value
  structured : Bool
  propsRef : Nat
deriving DecidableEq, Repr

/-- The source's `get_global_log_properties` in the heap view: a dict comprehension
allocates a fresh cell holding a copy of the global contents (plus
`LoggerName`). -/
def getGlobalLogPropertiesH (st : GlobalPropsState) (loggerName : String) : PropHeap × Nat :=
  st.heap.alloc (getGlobalLogProperties (st.heap.read st.globalRef) loggerName)

/-- Which dictionary object `_build_event_data` installs as the event's
`"Properties"`, and the heap afterwards: the positional branch fills a
fresh copy of the globals; the named branch updates the record's own
dictionary in place and uses it; the plain branch uses the global
dictionary itself. -/
def buildEventPropsRef (st : GlobalPropsState) (hr : HeapRecord) : PropHeap × Nat :=
  if hr.args ≠ [] then
    let a := getGlobalLogPropertiesH st hr.name
    (a.1.write a.2 (addArgs (a.1.read a.2) 0 hr.args), a.2)
  else if hr.structured then
    (st.heap.write hr.propsRef
      ((st.heap.read hr.propsRef).map (fun kv => (kv.1, encodeBytesIfRequired kv.2))),
      hr.propsRef)
  else (st.heap, st.globalRef)

/-! ## Claim-side (spec-worded) definitions, for refinement comparison -/

/-- Modelled from the claim's wording (C7): event properties as a copy of
the global properties overlaid with the named properties (named
properties winning on collision), plus the `ThreadId`/`ThreadName`
defaults — with no `LoggerName` entry and no byte encoding. -/
def specMergedProps (g : List (String × Value)) (kwargs : List (String × Value))
    (thread : Option Nat) (threadName : Option String) : List (String × Value) :=
  addThreadDefaults (kwargs.foldl (fun d kv => dictSet d kv.1 kv.2) g) thread threadName

/-- Modelled from the claim's wording (C8): render the template against
the properties, fall back to the raw template exactly on a missing-key
failure, and let any other formatting error propagate (`none`). -/
def specGetMessageNamed (msg : String) (props : List (String × Value)) : Option String :=
  match formatFields msg.data props with
  | .ok t => some (String.mk t)
  | .keyErr _ => some msg
  | _ => none

/-! ## Concrete fixtures used when instantiating theorems -/

/-- A fixed timestamp rendering (the timestamp converter is an external,
stateless collaborator). -/
def tsT : LogRecord → String := fun _ => "T"

/-- A fixed exception formatter (`Formatter.formatException` is an
external collaborator). -/
def feE : ExcInfo → String := fun _ => "E"

/-- A plain (non-structured) `logging.LogRecord` carrying only a message. -/
def mkPlainRecord (msg : String) : LogRecord :=
  { name := "", levelno := 20, msg := msg, args := [], structured := false,
    logProps := [], excInfo := .noInfo, excText := none }

/-- A positional-argument record as produced by
`log(INFO, "x=%s", 42)` through `StructuredLogger._log`. -/
def c1Record : LogRecord :=
  structuredLoggerLog [] "" 20 "x=%s" [Value.int 42] [] (some 7) (some "MainThread") .noInfo

/-- A structured record with one byte-valued named property. -/
def c6Record : LogRecord :=
  mkStructuredRecord "n" 20 "m" [] [("a", Value.bytes [97])] none none .noInfo

/-- A structured record whose template is a lone opening brace. -/
def c8BadRecord : LogRecord :=
  { name := "n", levelno := 20, msg := "\x7b", args := [], structured := true,
    logProps := [], excInfo := .noInfo, excText := none }

/-- A structured record whose template renders successfully. -/
def c8OkRecord : LogRecord :=
  { name := "n", levelno := 20, msg := "v=\x7bx\x7d", args := [], structured := true,
    logProps := [("x", Value.int 3)], excInfo := .noInfo, excText := none }

/-- A structured record whose template names a missing property. -/
def c8MissRecord : LogRecord :=
  { name := "n", levelno := 20, msg := "v=\x7by\x7d", args := [], structured := true,
    logProps := [("x", Value.int 3)], excInfo := .noInfo, excText := none }

/-- A concrete heap state: the global dictionary at cell 0, one record
dictionary at cell 1. -/
def c5State : GlobalPropsState :=
  { heap := ⟨[[("G", Value.int 1)], [("x", Value.int 2)]]⟩, globalRef := 0 }

/-- A concrete structured heap record whose `log_props` is cell 1. -/
def c5Rec : HeapRecord := { name := "n", args := [], structured := true, propsRef := 1 }

/-- A concrete plain heap record (no positional arguments, not a
`StructuredLogRecord`). -/
def c5PlainRec : HeapRecord := { name := "", args := [], structured := false, propsRef := 1 }

/-! ## Dictionary lemmas -/

theorem dictLookup_map_setEntry (rest : List (String × Value)) (k : String) (v : Value)
    (k' : String) (h : k' ≠ k) :
    dictLookup (rest.map (fun kv => if kv.1 = k then (k, v) else kv)) k' =
      dictLookup rest k' := by
  induction rest with
  | nil => rfl
  | cons kv rest ih =>
    obtain ⟨k0, v0⟩ := kv
    simp only [List.map_cons]
    by_cases hk : k0 = k
    · subst hk
      rw [if_pos rfl]
      have hne : k0 ≠ k' := fun hc => h hc.symm
      simp only [dictLookup, if_neg hne]
      exact ih
    · rw [if_neg hk]
      simp only [dictLookup]
      split
      · rfl
      · exact ih

theorem dictLookup_append (d1 d2 : List (String × Value)) (k : String) :
    dictLookup (d1 ++ d2) k =
      match dictLookup d1 k with
      | some v => some v
      | none => dictLookup d2 k := by
  induction d1 with
  | nil => rfl
  | cons kv rest ih =>
    obtain ⟨k0, v0⟩ := kv
    simp only [List.cons_append, dictLookup]
    split
    · rfl
    · exact ih

theorem dictLookup_eq_none_of_not_hasKey (d : List (String × Value)) (k : String)
    (h : d.any (fun kv => kv.1 = k) = false) : dictLookup d k = none := by
  induction d with
  | nil => rfl
  | cons kv rest ih =>
    obtain ⟨k0, v0⟩ := kv
    simp only [List.any_cons, Bool.or_eq_false_iff, decide_eq_false_iff_not] at h
    simp [dictLookup, h.1, ih (by simpa using h.2)]

theorem dictLookup_map_setEntry_self (d : List (String × Value)) (k : String) (v : Value)
    (h : d.any (fun kv => kv.1 = k) = true) :
    dictLookup (d.map (fun kv => if kv.1 = k then (k, v) else kv)) k = some v := by
  induction d with
  | nil => simp at h
  | cons kv rest ih =>
    obtain ⟨k0, v0⟩ := kv
    simp only [List.map_cons]
    by_cases hk : k0 = k
    · subst hk
      rw [if_pos rfl]
      simp [dictLookup]
    · rw [if_neg hk]
      simp only [List.any_cons, Bool.or_eq_true, decide_eq_true_eq] at h
      rcases h with h | h
      · exact absurd h hk
      · simp only [dictLookup, if_neg hk]
        exact ih h

theorem dictLookup_dictSet_self (d : List (String × Value)) (k : String) (v : Value) :
    dictLookup (dictSet d k v) k = some v := by
  unfold dictSet
  split
  · exact dictLookup_map_setEntry_self d k v (by assumption)
  · rename_i hany
    rw [dictLookup_append,
      dictLookup_eq_none_of_not_hasKey d k (Bool.eq_false_iff.mpr hany)]
    simp [dictLookup]

theorem dictLookup_dictSet_ne (d : List (String × Value)) (k : String) (v : Value)
    (k' : String) (h : k' ≠ k) :
    dictLookup (dictSet d k v) k' = dictLookup d k' := by
  unfold dictSet
  split
  · exact dictLookup_map_setEntry d k v k' h
  · rw [dictLookup_append]
    cases hd : dictLookup d k' with
    | some w => rfl
    | none =>
      have hne : ¬ k = k' := fun hc => h hc.symm
      simp [dictLookup, hne]

theorem dictHasKey_iff_lookup (d : List (String × Value)) (k : String) :
    dictHasKey d k = (dictLookup d k).isSome := by
  induction d with
  | nil => rfl
  | cons kv rest ih =>
    obtain ⟨k0, v0⟩ := kv
    simp only [dictHasKey, List.any_cons, dictLookup]
    by_cases hk : k0 = k
    · simp [hk]
    · simp only [if_neg hk, decide_eq_true_eq, hk, false_or] at *
      simpa [dictHasKey] using ih

theorem dictLookup_mapValues (d : List (String × Value)) (f : Value → Value) (k : String) :
    dictLookup (d.map (fun kv => (kv.1, f kv.2))) k = (dictLookup d k).map f := by
  induction d with
  | nil => rfl
  | cons kv rest ih =>
    obtain ⟨k0, v0⟩ := kv
    simp only [List.map_cons, dictLookup]
    split
    · rfl
    · exact ih

/-! ## Lemmas about the kwargs fold of `structuredLogProps` -/

theorem dictLookup_kwargsFold_notMem (kwargs : List (String × Value))
    (d : List (String × Value)) (k : String) (h : ∀ kv ∈ kwargs, kv.1 ≠ k) :
    dictLookup (kwargs.foldl
      (fun d kv => if wellKnownLoggerKwargs.contains kv.1 then d else dictSet d kv.1 kv.2) d) k =
      dictLookup d k := by
  induction kwargs generalizing d with
  | nil => rfl
  | cons kv rest ih =>
    simp only [List.foldl_cons]
    rw [ih _ (fun x hx => h x (List.mem_cons_of_mem _ hx))]
    split
    · rfl
    · exact dictLookup_dictSet_ne d kv.1 kv.2 k
        (fun hc => h kv (List.mem_cons_self _ _) hc.symm)

theorem dictLookup_kwargsFold_mem (kwargs : List (String × Value))
    (d : List (String × Value)) (k : String) (v : Value)
    (hnd : (kwargs.map Prod.fst).Nodup) (hm : (k, v) ∈ kwargs)
    (hw : wellKnownLoggerKwargs.contains k = false) :
    dictLookup (kwargs.foldl
      (fun d kv => if wellKnownLoggerKwargs.contains kv.1 then d else dictSet d kv.1 kv.2) d) k =
      some v := by
  induction kwargs generalizing d with
  | nil => simp at hm
  | cons kv rest ih =>
    simp only [List.map_cons, List.nodup_cons] at hnd
    rcases List.mem_cons.mp hm with heq | hmem
    · subst heq
      simp only [List.foldl_cons, hw, Bool.false_eq_true, if_false]
      rw [dictLookup_kwargsFold_notMem]
      · exact dictLookup_dictSet_self d k v
      · intro x hx hc
        refine hnd.1 ?_
        have hmm : x.1 ∈ rest.map Prod.fst := List.mem_map_of_mem Prod.fst hx
        rwa [hc] at hmm
    · exact ih _ hnd.2 hmem

/-! ## Lemmas about `addThreadDefaults` -/

theorem dictLookup_guardedSet (p : List (String × Value)) (k : String) (v : Value)
    (key : String) (val : Value) (h : dictLookup p k = some v) :
    dictLookup (if dictHasKey p key then p else dictSet p key val) k = some v := by
  by_cases hk : k = key
  · subst hk
    rw [if_pos (by rw [dictHasKey_iff_lookup, h]; rfl)]
    exact h
  · split
    · exact h
    · rw [dictLookup_dictSet_ne p key val k hk]
      exact h

theorem dictLookup_addThreadId_ne (p : List (String × Value)) (thread : Option Nat)
    (k : String) (h1 : k ≠ "ThreadId") :
    dictLookup (addThreadId p thread) k = dictLookup p k := by
  unfold addThreadId
  cases thread with
  | none => rfl
  | some t =>
    simp only
    split
    · rfl
    · exact dictLookup_dictSet_ne p "ThreadId" (.int (t : Int)) k h1

theorem dictLookup_addThreadName_ne (p : List (String × Value)) (threadName : Option String)
    (k : String) (h2 : k ≠ "ThreadName") :
    dictLookup (addThreadName p threadName) k = dictLookup p k := by
  unfold addThreadName
  cases threadName with
  | none => rfl
  | some tn =>
    simp only
    split
    · rfl
    · split
      · rfl
      · exact dictLookup_dictSet_ne p "ThreadName" (.str tn) k h2

theorem dictLookup_addThreadDefaults_ne (p : List (String × Value)) (thread : Option Nat)
    (threadName : Option String) (k : String) (h1 : k ≠ "ThreadId") (h2 : k ≠ "ThreadName") :
    dictLookup (addThreadDefaults p thread threadName) k = dictLookup p k := by
  unfold addThreadDefaults
  rw [dictLookup_addThreadName_ne _ _ _ h2, dictLookup_addThreadId_ne _ _ _ h1]

theorem dictLookup_addThreadId_some (p : List (String × Value)) (thread : Option Nat)
    (k : String) (v : Value) (h : dictLookup p k = some v) :
    dictLookup (addThreadId p thread) k = some v := by
  unfold addThreadId
  cases thread with
  | none => exact h
  | some t => exact dictLookup_guardedSet p k v "ThreadId" (.int (t : Int)) h

theorem dictLookup_addThreadName_some (p : List (String × Value)) (threadName : Option String)
    (k : String) (v : Value) (h : dictLookup p k = some v) :
    dictLookup (addThreadName p threadName) k = some v := by
  unfold addThreadName
  cases threadName with
  | none => exact h
  | some tn =>
    simp only
    split
    · exact h
    · exact dictLookup_guardedSet p k v "ThreadName" (.str tn) h

theorem dictLookup_addThreadDefaults_some (p : List (String × Value)) (thread : Option Nat)
    (threadName : Option String) (k : String) (v : Value) (h : dictLookup p k = some v) :
    dictLookup (addThreadDefaults p thread threadName) k = some v :=
  dictLookup_addThreadName_some _ _ _ _ (dictLookup_addThreadId_some _ _ _ _ h)

theorem addThreadId_none (p : List (String × Value)) : addThreadId p none = p := rfl

theorem addThreadName_none (p : List (String × Value)) : addThreadName p none = p := rfl

theorem addThreadName_empty (p : List (String × Value)) : addThreadName p (some "") = p := rfl

theorem dictLookup_addThreadId_absent (p : List (String × Value)) (t : Nat)
    (h : dictLookup p "ThreadId" = none) :
    dictLookup (addThreadId p (some t)) "ThreadId" = some (.int (t : Int)) := by
  unfold addThreadId
  simp only
  rw [dictHasKey_iff_lookup, h]
  simp only [Option.isSome_none, Bool.false_eq_true, if_false]
  exact dictLookup_dictSet_self p "ThreadId" (.int (t : Int))

theorem dictLookup_addThreadName_absent (p : List (String × Value)) (tn : String)
    (htn : tn ≠ "") (h : dictLookup p "ThreadName" = none) :
    dictLookup (addThreadName p (some tn)) "ThreadName" = some (.str tn) := by
  unfold addThreadName
  simp only
  rw [if_neg htn, dictHasKey_iff_lookup, h]
  simp only [Option.isSome_none, Bool.false_eq_true, if_false]
  exact dictLookup_dictSet_self p "ThreadName" (.str tn)

/-! ## Lemmas about `addArgs` -/

theorem dictLookup_addArgs_notIdx :
    ∀ (args : List Value) (d : List (String × Value)) (i : Nat) (k : String),
      (∀ j, j < args.length → Nat.repr (i + j) ≠ k) →
      dictLookup (addArgs d i args) k = dictLookup d k := by
  intro args
  induction args with
  | nil => intro d i k _; rfl
  | cons a rest ih =>
    intro d i k h
    simp only [addArgs]
    rw [ih _ (i + 1) k (fun j hj => by
      have := h (j + 1) (by simp only [List.length_cons]; omega)
      simpa [Nat.add_assoc, Nat.add_comm 1 j] using this)]
    exact dictLookup_dictSet_ne d (Nat.repr i) (encodeBytesIfRequired a) k
      (fun hc => h 0 (by simp) (by simpa using hc.symm))

theorem dictLookup_addArgs_lastIdx :
    ∀ (args : List Value) (d : List (String × Value)) (i : Nat), args ≠ [] →
      dictLookup (addArgs d i args) (Nat.repr (i + (args.length - 1))) =
        some (encodeBytesIfRequired (args.getD (args.length - 1) .null)) := by
  intro args
  induction args with
  | nil => intro d i h; exact absurd rfl h
  | cons a rest ih =>
    intro d i _
    cases hr : rest with
    | nil =>
      subst hr
      simp only [addArgs, List.length_cons, List.length_nil, Nat.add_sub_cancel, Nat.add_zero,
        List.getD]
      exact dictLookup_dictSet_self d (Nat.repr i) (encodeBytesIfRequired a)
    | cons b rest2 =>
      rw [← hr]
      have hne : rest ≠ [] := by rw [hr]; exact List.cons_ne_nil b rest2
      have hlen : 0 < rest.length := List.length_pos.mpr hne
      simp only [addArgs]
      have := ih (dictSet d (Nat.repr i) (encodeBytesIfRequired a)) (i + 1) hne
      have harith : i + 1 + (rest.length - 1) = i + (rest.length + 1 - 1) := by omega
      rw [harith] at this
      simp only [List.length_cons]
      rw [this]
      congr 1
      have : rest.length + 1 - 1 = (rest.length - 1) + 1 := by omega
      rw [this]
      simp only [List.getD_cons_succ]

/-! ## Base64 round-trip lemmas -/

theorem toSextets_lt_64 :
    ∀ (bs : List Nat), (∀ b ∈ bs, b < 256) → ∀ s ∈ toSextets bs, s < 64
  | [], _ => by simp [toSextets]
  | [a], h => by
    have ha := h a (by simp)
    simp only [toSextets, List.mem_cons, List.not_mem_nil, or_false]
    rintro s (rfl | rfl) <;> omega
  | [a, b], h => by
    have ha := h a (by simp)
    have hb := h b (by simp)
    simp only [toSextets, List.mem_cons, List.not_mem_nil, or_false]
    rintro s (rfl | rfl | rfl) <;> omega
  | a :: b :: c :: rest, h => by
    have ha := h a (by simp)
    have hb := h b (by simp)
    have hc := h c (by simp)
    have ih := toSextets_lt_64 rest (fun x hx => h x (by simp [hx]))
    simp only [toSextets, List.mem_cons]
    rintro s (rfl | rfl | rfl | rfl | hs)
    · omega
    · omega
    · omega
    · omega
    · exact ih s hs

theorem fromSextets_toSextets :
    ∀ (bs : List Nat), (∀ b ∈ bs, b < 256) → fromSextets (toSextets bs) = bs
  | [], _ => rfl
  | [a], h => by
    have ha := h a (by simp)
    simp only [toSextets, fromSextets, List.cons.injEq, and_true]
    omega
  | [a, b], h => by
    have ha := h a (by simp)
    have hb := h b (by simp)
    simp only [toSextets, fromSextets, List.cons.injEq, and_true]
    constructor
    · omega
    · omega
  | a :: b :: c :: rest, h => by
    have ha := h a (by simp)
    have hb := h b (by simp)
    have hc := h c (by simp)
    have ih := fromSextets_toSextets rest (fun x hx => h x (by simp [hx]))
    simp only [toSextets, fromSextets, List.cons.injEq]
    refine ⟨by omega, by omega, by omega, ih⟩

theorem b64CharOf_isAlpha (n : Nat) (h : n < 64) : b64IsAlphaChar (b64CharOf n) = true := by
  have hall : ∀ m, m < 64 → b64IsAlphaChar (b64CharOf m) = true := by decide
  exact hall n h

theorem b64ValueOf_b64CharOf (n : Nat) (h : n < 64) : b64ValueOf (b64CharOf n) = n := by
  have hall : ∀ m, m < 64 → b64ValueOf (b64CharOf m) = m := by decide
  exact hall n h

theorem filter_wrap76 (cs : List Char) :
    (wrap76 cs).filter b64IsAlphaChar = cs.filter b64IsAlphaChar := by
  unfold wrap76
  split
  · rw [List.filter_append]
    have : [('\n' : Char)].filter b64IsAlphaChar = [] := by decide
    rw [this, List.append_nil]
  · have ih := filter_wrap76 (cs.drop 76)
    rw [List.filter_append, List.filter_cons]
    have : b64IsAlphaChar '\n' = false := by decide
    rw [this]
    simp only [Bool.false_eq_true, if_false]
    rw [ih, ← List.filter_append, List.take_append_drop]
termination_by cs.length
decreasing_by simp only [List.length_drop]; omega

theorem filter_b64Pad (len : Nat) : (b64Pad len).filter b64IsAlphaChar = [] := by
  unfold b64Pad
  split
  · decide
  · split
    · decide
    · rfl

theorem filter_b64EncodeCore (bs : List Nat) (h : ∀ b ∈ bs, b < 256) :
    (b64EncodeCore bs).filter b64IsAlphaChar = b64EncodeCore bs := by
  refine List.filter_eq_self.mpr (fun c hc => ?_)
  obtain ⟨s, hs, rfl⟩ := List.mem_map.mp hc
  exact b64CharOf_isAlpha s (toSextets_lt_64 bs h s hs)

theorem map_b64ValueOf_encodeCore (bs : List Nat) (h : ∀ b ∈ bs, b < 256) :
    (b64EncodeCore bs).map b64ValueOf = toSextets bs := by
  unfold b64EncodeCore
  rw [List.map_map]
  have hcongr : ∀ s ∈ toSextets bs, (b64ValueOf ∘ b64CharOf) s = s := fun s hs =>
    b64ValueOf_b64CharOf s (toSextets_lt_64 bs h s hs)
  rw [List.map_congr_left hcongr]
  exact List.map_id' (toSextets bs)

/-- Base64 round trip: decoding the output of `base64.encodebytes`
recovers the original bytes. -/
theorem b64_roundtrip (bs : List Nat) (h : ∀ b ∈ bs, b < 256) :
    b64DecodeString (b64EncodeBytes bs) = bs := by
  unfold b64EncodeBytes b64DecodeString
  split
  · rename_i hnil
    subst hnil
    rfl
  · show fromSextets (((String.mk _).data.filter b64IsAlphaChar).map b64ValueOf) = bs
    rw [show ∀ cs : List Char, (String.mk cs).data = cs from fun _ => rfl]
    rw [filter_wrap76, List.filter_append, filter_b64EncodeCore bs h, filter_b64Pad,
      List.append_nil, map_b64ValueOf_encodeCore bs h, fromSextets_toSextets bs h]

/-! ## Supporting lemmas about `getGlobalLogProperties`,
`applyExceptionClause` and the heap view -/

theorem dictLookup_getGlobal_ne (g : List (String × Value)) (n : String) (k : String)
    (h : k ≠ "LoggerName") :
    dictLookup (getGlobalLogProperties g n) k = dictLookup g k := by
  unfold getGlobalLogProperties
  split
  · rfl
  · exact dictLookup_dictSet_ne g "LoggerName" (.str n) k h

theorem applyExceptionClause_event_fields (fe : ExcInfo → String) (amb : Bool) (r : LogRecord)
    (ev : EventData) :
    (applyExceptionClause fe amb r ev).1.timestamp = ev.timestamp ∧
    (applyExceptionClause fe amb r ev).1.level = ev.level ∧
    (applyExceptionClause fe amb r ev).1.messageTemplate = ev.messageTemplate ∧
    (applyExceptionClause fe amb r ev).1.properties = ev.properties := by
  unfold applyExceptionClause
  split
  · exact ⟨rfl, rfl, rfl, rfl⟩
  · split
    · exact ⟨rfl, rfl, rfl, rfl⟩
    · split
      · exact ⟨rfl, rfl, rfl, rfl⟩
      · exact ⟨rfl, rfl, rfl, rfl⟩
    · exact ⟨rfl, rfl, rfl, rfl⟩

theorem applyExceptionClause_record_fields (fe : ExcInfo → String) (amb : Bool) (r : LogRecord)
    (ev : EventData) :
    (applyExceptionClause fe amb r ev).2.name = r.name ∧
    (applyExceptionClause fe amb r ev).2.levelno = r.levelno ∧
    (applyExceptionClause fe amb r ev).2.msg = r.msg ∧
    (applyExceptionClause fe amb r ev).2.args = r.args ∧
    (applyExceptionClause fe amb r ev).2.structured = r.structured ∧
    (applyExceptionClause fe amb r ev).2.logProps = r.logProps := by
  unfold applyExceptionClause
  split
  · exact ⟨rfl, rfl, rfl, rfl, rfl, rfl⟩
  · split
    · exact ⟨rfl, rfl, rfl, rfl, rfl, rfl⟩
    · split
      · exact ⟨rfl, rfl, rfl, rfl, rfl, rfl⟩
      · exact ⟨rfl, rfl, rfl, rfl, rfl, rfl⟩
    · exact ⟨rfl, rfl, rfl, rfl, rfl, rfl⟩

theorem applyExceptionClause_excText_truthy (fe : ExcInfo → String) (amb : Bool) (r : LogRecord)
    (ev : EventData) (h : excTextTruthy r.excText = true) :
    (applyExceptionClause fe amb r ev).2.excText = r.excText := by
  unfold applyExceptionClause
  rw [if_pos h]

theorem applyExceptionClause_excText_noInfo (fe : ExcInfo → String) (amb : Bool) (r : LogRecord)
    (ev : EventData) (h : r.excInfo = .noInfo) :
    (applyExceptionClause fe amb r ev).2.excText = r.excText := by
  unfold applyExceptionClause
  split
  · rfl
  · rw [h]

theorem buildEventData_args_shape (g : List (String × Value)) (ts : LogRecord → String)
    (fmtExc : ExcInfo → String) (ambient : Bool) (r : LogRecord) (m : String)
    (ha : r.args ≠ []) (hm : recordGetMessage r = some m) :
    buildEventData g ts fmtExc ambient r =
      some (applyExceptionClause fmtExc ambient r
        { timestamp := ts r, level := getLevelName r.levelno, messageTemplate := m,
          properties := addArgs (getGlobalLogProperties g r.name) 0 r.args,
          exception := none }) := by
  unfold buildEventData
  rw [if_pos ha, hm]

theorem buildEventData_structured_shape (g : List (String × Value)) (ts : LogRecord → String)
    (fmtExc : ExcInfo → String) (ambient : Bool) (r : LogRecord)
    (ha : r.args = []) (hs : r.structured = true) :
    buildEventData g ts fmtExc ambient r =
      some (applyExceptionClause fmtExc ambient
        { r with logProps := r.logProps.map (fun kv => (kv.1, encodeBytesIfRequired kv.2)) }
        { timestamp := ts r, level := getLevelName r.levelno, messageTemplate := r.msg,
          properties := r.logProps.map (fun kv => (kv.1, encodeBytesIfRequired kv.2)),
          exception := none }) := by
  unfold buildEventData
  rw [if_neg (by simp [ha]), if_pos hs]

theorem buildEventData_plain_shape (g : List (String × Value)) (ts : LogRecord → String)
    (fmtExc : ExcInfo → String) (ambient : Bool) (r : LogRecord) (m : String)
    (ha : r.args = []) (hs : r.structured = false) (hm : recordGetMessage r = some m) :
    buildEventData g ts fmtExc ambient r =
      some (applyExceptionClause fmtExc ambient r
        { timestamp := ts r, level := getLevelName r.levelno, messageTemplate := m,
          properties := g, exception := none }) := by
  unfold buildEventData
  rw [if_neg (by simp [ha]), if_neg (by simp [hs]), hm]

theorem buildEventData_none_shape (g : List (String × Value)) (ts : LogRecord → String)
    (fmtExc : ExcInfo → String) (ambient : Bool) (r : LogRecord)
    (hm : recordGetMessage r = none) (hns : r.args ≠ [] ∨ r.structured = false) :
    buildEventData g ts fmtExc ambient r = none := by
  unfold buildEventData
  by_cases ha : r.args ≠ []
  · rw [if_pos ha, hm]
  · rcases hns with h | h
    · exact absurd h ha
    · rw [if_neg ha, if_neg (by simp [h]), hm]

theorem PropHeap.read_alloc (h : PropHeap) (d : List (String × Value)) (r : Nat)
    (hr : r < h.cells.length) : (h.alloc d).1.read r = h.read r := by
  unfold PropHeap.alloc PropHeap.read
  exact List.getD_append h.cells [d] [] r hr

theorem buildEventPropsRef_ref_lt (st : GlobalPropsState) (hr : HeapRecord)
    (hg : st.globalRef < st.heap.cells.length) (hp : hr.propsRef < st.heap.cells.length) :
    (buildEventPropsRef st hr).2 < (buildEventPropsRef st hr).1.cells.length := by
  unfold buildEventPropsRef
  split
  · unfold getGlobalLogPropertiesH PropHeap.alloc PropHeap.write
    simp [List.length_set]
  · split
    · unfold PropHeap.write
      simp only [List.length_set]
      exact hp
    · exact hg

/-! ## Claim theorems -/

/-- Claim C10: the byte-encoding step is the identity on every non-bytes
value, and applying it twice always equals applying it once (its outputs
are never bytes). -/
theorem c10_encode_identity_on_non_bytes (v : Value) :
    (isBytesValue v = false → encodeBytesIfRequired v = v) ∧
    encodeBytesIfRequired (encodeBytesIfRequired v) = encodeBytesIfRequired v := by
  constructor
  · intro h
    cases v with
    | bytes bs => simp [isBytesValue] at h
    | null => rfl
    | bool b => rfl
    | int n => rfl
    | str s => rfl
    | obj t => rfl
  · cases v with
    | bytes bs =>
      simp only [encodeBytesIfRequired]
      cases utf8DecodeBytes bs <;> rfl
    | null => rfl
    | bool b => rfl
    | int n => rfl
    | str s => rfl
    | obj t => rfl

/-- Witness for C10 at the concrete non-bytes value `5`. -/
theorem c10_encode_identity_witness :
    encodeBytesIfRequired (Value.int 5) = Value.int 5 ∧
    encodeBytesIfRequired (encodeBytesIfRequired (Value.int 5)) =
      encodeBytesIfRequired (Value.int 5) :=
  ⟨(c10_encode_identity_on_non_bytes (Value.int 5)).1 rfl,
    (c10_encode_identity_on_non_bytes (Value.int 5)).2⟩

/-- Claim C2: encoding a byte payload yields the UTF-8 decoded text when
the bytes are valid UTF-8; otherwise it yields the Base64 string, and
Base64-decoding that string recovers exactly the original bytes. -/
theorem c2_encode_bytes_utf8_or_base64 (bs : List Nat) (h : ∀ b ∈ bs, b < 256) :
    (∀ s, utf8DecodeBytes bs = some s → encodeBytesIfRequired (.bytes bs) = .str s) ∧
    (utf8DecodeBytes bs = none →
      encodeBytesIfRequired (.bytes bs) = .str (b64EncodeBytes bs) ∧
      b64DecodeString (b64EncodeBytes bs) = bs) := by
  constructor
  · intro s hs
    simp [encodeBytesIfRequired, hs]
  · intro hs
    exact ⟨by simp [encodeBytesIfRequired, hs], b64_roundtrip bs h⟩

/-- Witness for C2 at the invalid-UTF-8 payload `b'\xff'` (and, for the
valid side, `b'a'`). -/
theorem c2_encode_bytes_witness :
    utf8DecodeBytes [255] = none ∧
    encodeBytesIfRequired (.bytes [255]) = .str (b64EncodeBytes [255]) ∧
    b64DecodeString (b64EncodeBytes [255]) = [255] ∧
    encodeBytesIfRequired (.bytes [97]) = .str "a" := by
  have h1 := (c2_encode_bytes_utf8_or_base64 [255] (by decide)).2 (by decide)
  have h2 := (c2_encode_bytes_utf8_or_base64 [97] (by decide)).1 "a" (by decide)
  exact ⟨by decide, h1.1, h1.2, h2⟩

/-- Claim C3: when the batch is non-empty and serializing the wire body
fails (the `TypeError` from `json.dumps`), every record of the batch is
passed to `handleError` individually (in order), no transmission is
attempted, nothing is retried and no exception escapes. -/
theorem c3_serialize_failure_reports_every_event (g : List (String × Value))
    (ts : LogRecord → String) (fmtExc : ExcInfo → String) (ambient : Bool)
    (serialize : List EventData → SerializeResult) (post : String → PostOutcome)
    (batch : List LogRecord) (built : List (EventData × LogRecord))
    (hne : batch ≠ [])
    (hbuilt : batch.mapM (fun r => buildEventData g ts fmtExc ambient r) = some built)
    (hser : serialize (built.map Prod.fst) = .typeError) :
    publishLogBatch g ts fmtExc ambient serialize post batch =
      { handledErrors := batch, postAttempts := 0, stderrLines := [], raised := false } := by
  cases batch with
  | nil => exact absurd rfl hne
  | cons first rest =>
    unfold publishLogBatch
    rw [hbuilt]
    simp only [hser]

/-- Witness for C3 at a concrete one-record batch. -/
theorem c3_serialize_failure_witness :
    publishLogBatch [] tsT feE false (fun _ => .typeError) (fun _ => .reqError none)
      [mkPlainRecord "m"] =
      { handledErrors := [mkPlainRecord "m"], postAttempts := 0, stderrLines := [],
        raised := false } := by
  refine c3_serialize_failure_reports_every_event [] tsT feE false _ _ [mkPlainRecord "m"]
    [({ timestamp := "T", level := "INFO", messageTemplate := "m", properties := [],
        exception := none }, mkPlainRecord "m")] (by decide) (by decide) rfl

/-- Claim C9 counterexample: a configured base URL that already ends with
two slashes is left as is, so the endpoint has a double slash before the
path, unlike the claim's single-slash normalization. -/
theorem c9_url_counterexample :
    seqServerUrl "http://seq//" = "http://seq//api/events/raw" ∧
    specSeqServerUrl "http://seq//" = "http://seq/api/events/raw" ∧
    seqServerUrl "http://seq//" ≠ specSeqServerUrl "http://seq//" := by
  refine ⟨by decide, by decide, by decide⟩

/-- Claim C9 amended: the handler appends `"/"` only when the configured
URL does not already end with one, then appends `"api/events/raw"`; a URL
already ending in a slash (or several) is used unchanged. -/
theorem c9_url_amended (u : String) :
    (pyEndsWith u "/" = false → seqServerUrl u = u ++ "/api/events/raw") ∧
    (pyEndsWith u "/" = true → seqServerUrl u = u ++ "api/events/raw") := by
  constructor
  · intro h
    unfold seqServerUrl
    rw [h]
    simp only [Bool.false_eq_true, if_false]
    rw [String.append_assoc]
    rfl
  · intro h
    unfold seqServerUrl
    rw [h, if_pos rfl]

/-- Witness for C9 at concrete URLs with and without a trailing slash. -/
theorem c9_url_witness :
    seqServerUrl "http://x" = "http://x" ++ "/api/events/raw" ∧
    seqServerUrl "http://x/" = "http://x/" ++ "api/events/raw" :=
  ⟨(c9_url_amended "http://x").1 (by decide), (c9_url_amended "http://x/").2 (by decide)⟩

/-- Claim C4, evaluated at the failing input: a two-record batch whose
transmission draws an HTTP 500 with body `"err"`.  As the claim states,
only the first record is reported, exactly one transmission is attempted,
the batch is discarded without retry and no exception escapes — but the
diagnostic text is `"Response from Seq was unavailable."` instead of
text derived from the response body, because `requests.Response.__bool__`
is `ok` and a `4xx`/`5xx` response therefore tests falsy in
`if not requestFailed.response`. -/
theorem c4_transport_failure_behavior :
    publishLogBatch [] tsT feE false (fun _ => .ok "PAYLOAD")
      (fun _ => .response { status := 500, text := "err" })
      [mkPlainRecord "a", mkPlainRecord "b"] =
      { handledErrors := [mkPlainRecord "a"], postAttempts := 1,
        stderrLines := ["Response from Seq was unavailable.\n"], raised := false } ∧
    transportDiagnostic (some { status := 500, text := "err" }) =
      "Response from Seq was unavailable.\n" := by
  refine ⟨by decide, by decide⟩

/-- Claim C5 counterexample: for a record with no positional arguments
that is not a `StructuredLogRecord`, the event's `Properties` is the
global dictionary object itself (the third `_build_event_data` branch
installs `_global_log_props` without copying), so the claimed
"never an alias" is false. -/
theorem c5_alias_counterexample :
    (buildEventPropsRef c5State c5PlainRec).2 = c5State.globalRef ∧
    (buildEventPropsRef c5State c5PlainRec).1 = c5State.heap := by
  refine ⟨rfl, rfl⟩

/-- Claim C5 amended: the event's properties dictionary is a fresh copy
in the positional-argument branch, the record's own dictionary in the
named-property branch, and the global dictionary itself (an alias) in the
plain branch; nevertheless `set_global_log_properties` and
`clear_global_log_properties` rebind the global name to a newly built
dictionary instead of mutating the old one, so the `Properties` of an
already-built event are unchanged by either, in all three branches. -/
theorem c5_set_clear_preserve_event_props (st : GlobalPropsState) (hr : HeapRecord)
    (newProps : List (String × Value))
    (hg : st.globalRef < st.heap.cells.length) (hp : hr.propsRef < st.heap.cells.length) :
    (setGlobalLogPropertiesH
        { heap := (buildEventPropsRef st hr).1, globalRef := st.globalRef } newProps).heap.read
        (buildEventPropsRef st hr).2 =
      (buildEventPropsRef st hr).1.read (buildEventPropsRef st hr).2 ∧
    (clearGlobalLogPropertiesH
        { heap := (buildEventPropsRef st hr).1, globalRef := st.globalRef }).heap.read
        (buildEventPropsRef st hr).2 =
      (buildEventPropsRef st hr).1.read (buildEventPropsRef st hr).2 := by
  have hlt := buildEventPropsRef_ref_lt st hr hg hp
  exact ⟨PropHeap.read_alloc _ newProps _ hlt, PropHeap.read_alloc _ [] _ hlt⟩

/-- Witness for C5 at a concrete state and record. -/
theorem c5_set_clear_preserve_witness :
    (setGlobalLogPropertiesH
        { heap := (buildEventPropsRef c5State c5Rec).1, globalRef := c5State.globalRef }
        [("X", Value.int 9)]).heap.read (buildEventPropsRef c5State c5Rec).2 =
      (buildEventPropsRef c5State c5Rec).1.read (buildEventPropsRef c5State c5Rec).2 ∧
    (clearGlobalLogPropertiesH
        { heap := (buildEventPropsRef c5State c5Rec).1,
          globalRef := c5State.globalRef }).heap.read (buildEventPropsRef c5State c5Rec).2 =
      (buildEventPropsRef c5State c5Rec).1.read (buildEventPropsRef c5State c5Rec).2 :=
  c5_set_clear_preserve_event_props c5State c5Rec [("X", Value.int 9)] (by decide) (by decide)

/-- Claim C6 counterexample: building the wire representation of a
structured record holding a byte-valued named property overwrites that
property in the record's own `log_props` dictionary with its encoded
string, so the record is not left unchanged. -/
theorem c6_mutation_counterexample :
    (buildEventData [] tsT feE false c6Record).map (fun p => p.2.logProps) =
      some [("a", Value.str "a")] ∧
    (buildEventData [] tsT feE false c6Record).map (fun p => p.2) ≠ some c6Record := by
  refine ⟨by decide, by decide⟩

/-- Claim C6 amended: `_build_event_data` leaves every record field
unchanged except that (i) in the named-property branch (no positional
arguments, structured record) the `log_props` values are overwritten with
their byte-encoded form, and (ii) the exception block may cache rendered
exception text on `exc_text`; a record whose `exc_text` is already truthy,
or whose `exc_info` is absent, keeps its `exc_text`. -/
theorem c6_build_mutations_exactly (g : List (String × Value)) (ts : LogRecord → String)
    (fmtExc : ExcInfo → String) (ambient : Bool) (r : LogRecord) (ev : EventData)
    (r2 : LogRecord) (hb : buildEventData g ts fmtExc ambient r = some (ev, r2)) :
    r2.name = r.name ∧ r2.levelno = r.levelno ∧ r2.msg = r.msg ∧ r2.args = r.args ∧
    r2.structured = r.structured ∧
    (r.args = [] → r.structured = true →
      r2.logProps = r.logProps.map (fun kv => (kv.1, encodeBytesIfRequired kv.2))) ∧
    ((r.args ≠ [] ∨ r.structured = false) → r2.logProps = r.logProps) ∧
    (excTextTruthy r.excText = true → r2.excText = r.excText) ∧
    (r.excInfo = .noInfo → r2.excText = r.excText) := by
  by_cases ha : r.args = []
  · by_cases hs : r.structured = true
    · rw [buildEventData_structured_shape g ts fmtExc ambient r ha hs] at hb
      simp only [Option.some.injEq] at hb
      have hr2 : r2 =
          (applyExceptionClause fmtExc ambient
            { r with logProps := r.logProps.map (fun kv => (kv.1, encodeBytesIfRequired kv.2)) }
            { timestamp := ts r, level := getLevelName r.levelno, messageTemplate := r.msg,
              properties := r.logProps.map (fun kv => (kv.1, encodeBytesIfRequired kv.2)),
              exception := none }).2 := by rw [hb]
      obtain ⟨f1, f2, f3, f4, f5, f6⟩ := applyExceptionClause_record_fields fmtExc ambient
        { r with logProps := r.logProps.map (fun kv => (kv.1, encodeBytesIfRequired kv.2)) }
        { timestamp := ts r, level := getLevelName r.levelno, messageTemplate := r.msg,
          properties := r.logProps.map (fun kv => (kv.1, encodeBytesIfRequired kv.2)),
          exception := none }
      refine ⟨by rw [hr2, f1], by rw [hr2, f2], by rw [hr2, f3], by rw [hr2, f4],
        by rw [hr2, f5], fun _ _ => by rw [hr2, f6], ?_, ?_, ?_⟩
      · intro hcon
        rcases hcon with hcon | hcon
        · exact absurd ha hcon
        · rw [hs] at hcon; exact absurd hcon (by simp)
      · intro htr
        rw [hr2, applyExceptionClause_excText_truthy fmtExc ambient
          { r with logProps := r.logProps.map (fun kv => (kv.1, encodeBytesIfRequired kv.2)) }
          _ htr]
      · intro hni
        rw [hr2, applyExceptionClause_excText_noInfo fmtExc ambient
          { r with logProps := r.logProps.map (fun kv => (kv.1, encodeBytesIfRequired kv.2)) }
          _ hni]
    · have hs2 : r.structured = false := by
        cases hx : r.structured
        · rfl
        · exact absurd hx hs
      cases hm : recordGetMessage r with
      | none =>
        rw [buildEventData_none_shape g ts fmtExc ambient r hm (Or.inr hs2)] at hb
        exact absurd hb (by simp)
      | some m =>
        rw [buildEventData_plain_shape g ts fmtExc ambient r m ha hs2 hm] at hb
        simp only [Option.some.injEq] at hb
        have hr2 : r2 = (applyExceptionClause fmtExc ambient r
            { timestamp := ts r, level := getLevelName r.levelno, messageTemplate := m,
              properties := g, exception := none }).2 := by rw [hb]
        obtain ⟨f1, f2, f3, f4, f5, f6⟩ := applyExceptionClause_record_fields fmtExc ambient r
          { timestamp := ts r, level := getLevelName r.levelno, messageTemplate := m,
            properties := g, exception := none }
        refine ⟨by rw [hr2, f1], by rw [hr2, f2], by rw [hr2, f3], by rw [hr2, f4],
          by rw [hr2, f5], ?_, fun _ => by rw [hr2, f6], ?_, ?_⟩
        · intro _ hcon
          rw [hcon] at hs2
          exact absurd hs2 (by simp)
        · intro htr
          rw [hr2, applyExceptionClause_excText_truthy _ _ _ _ htr]
        · intro hni
          rw [hr2, applyExceptionClause_excText_noInfo _ _ _ _ hni]
  · cases hm : recordGetMessage r with
    | none =>
      rw [buildEventData_none_shape g ts fmtExc ambient r hm (Or.inl ha)] at hb
      exact absurd hb (by simp)
    | some m =>
      rw [buildEventData_args_shape g ts fmtExc ambient r m ha hm] at hb
      simp only [Option.some.injEq] at hb
      have hr2 : r2 = (applyExceptionClause fmtExc ambient r
          { timestamp := ts r, level := getLevelName r.levelno, messageTemplate := m,
            properties := addArgs (getGlobalLogProperties g r.name) 0 r.args,
            exception := none }).2 := by rw [hb]
      obtain ⟨f1, f2, f3, f4, f5, f6⟩ := applyExceptionClause_record_fields fmtExc ambient r
        { timestamp := ts r, level := getLevelName r.levelno, messageTemplate := m,
          properties := addArgs (getGlobalLogProperties g r.name) 0 r.args, exception := none }
      refine ⟨by rw [hr2, f1], by rw [hr2, f2], by rw [hr2, f3], by rw [hr2, f4],
        by rw [hr2, f5], fun hcon _ => absurd hcon ha, fun _ => by rw [hr2, f6], ?_, ?_⟩
      · intro htr
        rw [hr2, applyExceptionClause_excText_truthy _ _ _ _ htr]
      · intro hni
        rw [hr2, applyExceptionClause_excText_noInfo _ _ _ _ hni]

/-- Witness for C6 at a concrete byte-free record (unchanged by the
build). -/
theorem c6_build_mutations_witness :
    (buildEventData [] tsT feE false (mkPlainRecord "w")).map (fun p => p.2.logProps) =
      some (mkPlainRecord "w").logProps ∧
    (buildEventData [] tsT feE false (mkPlainRecord "w")).map (fun p => p.2.excText) =
      some (mkPlainRecord "w").excText := by
  obtain ⟨ev, r2, hb⟩ : ∃ ev r2,
      buildEventData [] tsT feE false (mkPlainRecord "w") = some (ev, r2) := ⟨_, _, rfl⟩
  obtain ⟨-, -, -, -, -, -, hlp, -, hni⟩ :=
    c6_build_mutations_exactly [] tsT feE false (mkPlainRecord "w") ev r2 hb
  rw [hb]
  refine ⟨?_, ?_⟩
  · simp only [Option.map_some']
    rw [hlp (Or.inr rfl)]
  · simp only [Option.map_some']
    rw [hni rfl]

/-- Claim C8 counterexample: a template consisting of a lone opening
brace makes `str.format` raise a `ValueError` — an error unrelated to any
placeholder/property mismatch — yet `getMessage` still returns the raw
template: the source's bare `except:` suppresses every rendering error,
not only missing keys, unlike the claim-side renderer which propagates
it. -/
theorem c8_unrelated_error_suppressed :
    formatFields "\x7b".data [] = .valErr ∧
    specGetMessageNamed "\x7b" [] = none ∧
    recordGetMessage c8BadRecord = some "\x7b" := by
  refine ⟨by decide, by decide, by decide⟩

/-- Claim C8 amended: for a structured record without positional
arguments, `getMessage` returns the rendered template when rendering
succeeds, and falls back to the raw template whenever rendering fails for
any reason whatsoever (missing key, bad index, malformed braces) — the
bare `except:` bounds nothing to the missing-key case. -/
theorem c8_render_fallback_blanket (r : LogRecord) (ha : r.args = [])
    (hs : r.structured = true) :
    (∀ t, formatFields r.msg.data r.logProps = .ok t →
      recordGetMessage r = some (String.mk t)) ∧
    (∀ e, formatFields r.msg.data r.logProps = e → (∀ t, e ≠ .ok t) →
      recordGetMessage r = some r.msg) := by
  unfold recordGetMessage
  rw [if_neg (by simp [ha]), if_pos hs]
  constructor
  · intro t ht
    rw [ht]
  · intro e he hne
    rw [he]
    cases e with
    | ok t => exact absurd rfl (hne t)
    | keyErr k => rfl
    | idxErr => rfl
    | valErr => rfl

/-- Witness for C8 at concrete records: one that renders, one with a
missing key that falls back. -/
theorem c8_render_fallback_witness :
    recordGetMessage c8OkRecord = some "v=3" ∧
    recordGetMessage c8MissRecord = some c8MissRecord.msg := by
  constructor
  · exact (c8_render_fallback_blanket c8OkRecord rfl rfl).1 "v=3".data (by decide)
  · exact (c8_render_fallback_blanket c8MissRecord rfl rfl).2 (.keyErr "y") (by decide)
      (fun t => by simp)

/-- Claim C7 counterexample: a named-property log call on a logger named
`"app"` yields event properties containing a `LoggerName` entry that the
claimed merge (copy of globals overlaid with named properties plus thread
defaults) does not produce. -/
theorem c7_loggername_counterexample :
    (buildEventData [] tsT feE false
        (structuredLoggerLog [] "app" 20 "m" [] [("x", Value.int 1)] (some 7) (some "T")
          .noInfo)).map (fun p => p.1.properties) =
      some [("LoggerName", Value.str "app"), ("x", Value.int 1), ("ThreadId", Value.int 7),
        ("ThreadName", Value.str "T")] ∧
    specMergedProps [] [("x", Value.int 1)] (some 7) (some "T") =
      [("x", Value.int 1), ("ThreadId", Value.int 7), ("ThreadName", Value.str "T")] ∧
    (buildEventData [] tsT feE false
        (structuredLoggerLog [] "app" 20 "m" [] [("x", Value.int 1)] (some 7) (some "T")
          .noInfo)).map (fun p => p.1.properties) ≠
      some (specMergedProps [] [("x", Value.int 1)] (some 7) (some "T")) := by
  refine ⟨by decide, by decide, by decide⟩

/-- Claim C7 amended: for a named-property call without positional
arguments, the event's properties are the copy of the global properties
**plus a `LoggerName` entry for a non-empty logger name**, overlaid with
the named properties (named properties win on collision), with
`ThreadId`/`ThreadName` added only when absent, and every value passed
through the byte-encoding step.  Pointwise: a named property is present
with its encoded value; a key that is none of the named properties,
`LoggerName`, `ThreadId`, `ThreadName` is looked up in the globals;
`LoggerName` maps to the logger's name when not overridden; and
`ThreadId`/`ThreadName` are added exactly when the record has a truthy
thread id / thread name and the key is not already present among the
merged properties (an already-present value is kept, encoded; nothing is
added for a falsy thread id / thread name). -/
theorem c7_named_props_amended (g : List (String × Value)) (ts : LogRecord → String)
    (fmtExc : ExcInfo → String) (ambient : Bool) (name : String) (lvl : Nat) (msg : String)
    (kwargs : List (String × Value)) (thread : Option Nat) (threadName : Option String)
    (hnd : (kwargs.map Prod.fst).Nodup) :
    ∃ ev r2,
      buildEventData g ts fmtExc ambient
        (structuredLoggerLog g name lvl msg [] kwargs thread threadName .noInfo) =
        some (ev, r2) ∧
      (∀ k v, (k, v) ∈ kwargs → wellKnownLoggerKwargs.contains k = false →
        dictLookup ev.properties k = some (encodeBytesIfRequired v)) ∧
      (∀ k, (∀ kv ∈ kwargs, kv.1 ≠ k) → k ≠ "LoggerName" → k ≠ "ThreadId" →
        k ≠ "ThreadName" →
        dictLookup ev.properties k = (dictLookup g k).map encodeBytesIfRequired) ∧
      (name ≠ "" → (∀ kv ∈ kwargs, kv.1 ≠ "LoggerName") →
        dictLookup ev.properties "LoggerName" = some (.str name)) ∧
      (∀ t, thread = some t →
        dictLookup (structuredLogProps g name kwargs) "ThreadId" = none →
        dictLookup ev.properties "ThreadId" = some (.int (t : Int))) ∧
      (∀ v, dictLookup (structuredLogProps g name kwargs) "ThreadId" = some v →
        dictLookup ev.properties "ThreadId" = some (encodeBytesIfRequired v)) ∧
      (thread = none →
        dictLookup (structuredLogProps g name kwargs) "ThreadId" = none →
        dictLookup ev.properties "ThreadId" = none) ∧
      (∀ tn, threadName = some tn → tn ≠ "" →
        dictLookup (structuredLogProps g name kwargs) "ThreadName" = none →
        dictLookup ev.properties "ThreadName" = some (.str tn)) ∧
      (∀ v, dictLookup (structuredLogProps g name kwargs) "ThreadName" = some v →
        dictLookup ev.properties "ThreadName" = some (encodeBytesIfRequired v)) ∧
      (threadName = none ∨ threadName = some "" →
        dictLookup (structuredLogProps g name kwargs) "ThreadName" = none →
        dictLookup ev.properties "ThreadName" = none) := by
  have hb := buildEventData_structured_shape g ts fmtExc ambient
    (structuredLoggerLog g name lvl msg [] kwargs thread threadName .noInfo) rfl rfl
  have hRlp : (structuredLoggerLog g name lvl msg [] kwargs thread threadName .noInfo).logProps =
      addThreadDefaults (structuredLogProps g name kwargs) thread threadName := rfl
  refine ⟨_, _, hb, ?_, ?_, ?_, ?_, ?_, ?_, ?_, ?_, ?_⟩
  · intro k v hm hw
    dsimp only
    rw [dictLookup_mapValues, hRlp]
    have h1 : dictLookup (structuredLogProps g name kwargs) k = some v := by
      unfold structuredLogProps
      exact dictLookup_kwargsFold_mem kwargs _ k v hnd hm hw
    rw [dictLookup_addThreadDefaults_some _ thread threadName k v h1]
    rfl
  · intro k hkw hL hTI hTN
    dsimp only
    rw [dictLookup_mapValues, hRlp,
      dictLookup_addThreadDefaults_ne _ thread threadName k hTI hTN]
    unfold structuredLogProps
    rw [dictLookup_kwargsFold_notMem kwargs _ k hkw, dictLookup_getGlobal_ne g name k hL]
  · intro hname hLkw
    dsimp only
    rw [dictLookup_mapValues, hRlp]
    have h1 : dictLookup (structuredLogProps g name kwargs) "LoggerName" =
        some (.str name) := by
      unfold structuredLogProps
      rw [dictLookup_kwargsFold_notMem kwargs _ "LoggerName" hLkw]
      unfold getGlobalLogProperties
      rw [if_neg hname]
      exact dictLookup_dictSet_self g "LoggerName" (.str name)
    rw [dictLookup_addThreadDefaults_some _ thread threadName _ _ h1]
    rfl
  · intro t ht h
    subst ht
    dsimp only
    rw [dictLookup_mapValues, hRlp]
    unfold addThreadDefaults
    rw [dictLookup_addThreadName_ne _ threadName "ThreadId" (by decide),
      dictLookup_addThreadId_absent _ t h]
    rfl
  · intro v h
    dsimp only
    rw [dictLookup_mapValues, hRlp,
      dictLookup_addThreadDefaults_some _ thread threadName _ _ h]
    rfl
  · intro ht h
    subst ht
    dsimp only
    rw [dictLookup_mapValues, hRlp]
    unfold addThreadDefaults
    rw [addThreadId_none, dictLookup_addThreadName_ne _ threadName "ThreadId" (by decide), h]
    rfl
  · intro tn ht htn h
    subst ht
    dsimp only
    rw [dictLookup_mapValues, hRlp]
    unfold addThreadDefaults
    rw [dictLookup_addThreadName_absent _ tn htn
      (by rw [dictLookup_addThreadId_ne _ thread "ThreadName" (by decide)]; exact h)]
    rfl
  · intro v h
    dsimp only
    rw [dictLookup_mapValues, hRlp,
      dictLookup_addThreadDefaults_some _ thread threadName _ _ h]
    rfl
  · intro ht h
    dsimp only
    rw [dictLookup_mapValues, hRlp]
    unfold addThreadDefaults
    rcases ht with ht | ht
    · subst ht
      rw [addThreadName_none, dictLookup_addThreadId_ne _ thread "ThreadName" (by decide), h]
      rfl
    · subst ht
      rw [addThreadName_empty, dictLookup_addThreadId_ne _ thread "ThreadName" (by decide), h]
      rfl

/-- Witness for C7 at a concrete call with one named property. -/
theorem c7_named_props_witness :
    (buildEventData [("G", Value.int 5)] tsT feE false
        (structuredLoggerLog [("G", Value.int 5)] "app" 20 "m" [] [("x", Value.int 1)]
          (some 7) (some "T") .noInfo)).map (fun p => dictLookup p.1.properties "x") =
      some (some (Value.int 1)) ∧
    (buildEventData [("G", Value.int 5)] tsT feE false
        (structuredLoggerLog [("G", Value.int 5)] "app" 20 "m" [] [("x", Value.int 1)]
          (some 7) (some "T") .noInfo)).map
        (fun p => dictLookup p.1.properties "LoggerName") = some (some (Value.str "app")) ∧
    (buildEventData [("G", Value.int 5)] tsT feE false
        (structuredLoggerLog [("G", Value.int 5)] "app" 20 "m" [] [("x", Value.int 1)]
          (some 7) (some "T") .noInfo)).map (fun p => dictLookup p.1.properties "G") =
      some (some (Value.int 5)) ∧
    (buildEventData [("G", Value.int 5)] tsT feE false
        (structuredLoggerLog [("G", Value.int 5)] "app" 20 "m" [] [("x", Value.int 1)]
          (some 7) (some "T") .noInfo)).map
        (fun p => dictLookup p.1.properties "ThreadId") = some (some (Value.int 7)) ∧
    (buildEventData [("G", Value.int 5)] tsT feE false
        (structuredLoggerLog [("G", Value.int 5)] "app" 20 "m" [] [("x", Value.int 1)]
          (some 7) (some "T") .noInfo)).map
        (fun p => dictLookup p.1.properties "ThreadName") = some (some (Value.str "T")) := by
  obtain ⟨ev, r2, hb, hmem, hother, hlog, htidAdd, htidKeep, htidNone, htnAdd, htnKeep,
    htnNone⟩ :=
    c7_named_props_amended [("G", Value.int 5)] tsT feE false "app" 20 "m"
      [("x", Value.int 1)] (some 7) (some "T") (by decide)
  rw [hb]
  simp only [Option.map_some']
  refine ⟨?_, ?_, ?_, ?_, ?_⟩
  · rw [hmem "x" (Value.int 1) (by decide) (by decide)]
    rfl
  · rw [hlog (by decide) (by decide)]
  · rw [hother "G" (by decide) (by decide) (by decide) (by decide)]
    rfl
  · rw [htidAdd 7 rfl (by decide)]
    decide
  · rw [htnAdd "T" rfl (by decide) (by decide)]

/-- Claim C1 counterexample: for `log(INFO, "x=%s", 42)` the built
event's `MessageTemplate` is the substituted text `"x=42"`, not the
literal template `"x=%s"`, and the event's properties carry no
`ThreadId`/`ThreadName` even though the record's own `log_props` do. -/
theorem c1_substituted_template_counterexample :
    (buildEventData [] tsT feE false c1Record).map (fun p => p.1.messageTemplate) =
      some "x=42" ∧
    c1Record.msg = "x=%s" ∧
    ("x=42" : String) ≠ "x=%s" ∧
    (buildEventData [] tsT feE false c1Record).map
      (fun p => dictLookup p.1.properties "ThreadId") = some none ∧
    dictLookup c1Record.logProps "ThreadId" = some (Value.int 7) := by
  refine ⟨by decide, by decide, by decide, by decide, by decide⟩

/-- Claim C1 amended: for a record with positional arguments, the event's
properties are the copy of the global properties (with `LoggerName` for a
non-empty logger name) plus one entry per argument keyed by its
stringified zero-based index holding the byte-encoded argument, with no
`ThreadId`/`ThreadName` added; any key that is not an argument index is
looked up unchanged in that global copy; and `MessageTemplate` is the
`%`-substituted message, not the literal template. -/
theorem c1_positional_amended (g : List (String × Value)) (ts : LogRecord → String)
    (fmtExc : ExcInfo → String) (ambient : Bool) (r : LogRecord) (m : String)
    (hargs : r.args ≠ []) (hmsg : recordGetMessage r = some m) :
    ∃ ev r2, buildEventData g ts fmtExc ambient r = some (ev, r2) ∧
      ev.messageTemplate = m ∧
      ev.properties = addArgs (getGlobalLogProperties g r.name) 0 r.args ∧
      (∀ k, (∀ j, j < r.args.length → Nat.repr j ≠ k) →
        dictLookup ev.properties k = dictLookup (getGlobalLogProperties g r.name) k) ∧
      dictLookup ev.properties (Nat.repr (r.args.length - 1)) =
        some (encodeBytesIfRequired (r.args.getD (r.args.length - 1) .null)) := by
  have hb := buildEventData_args_shape g ts fmtExc ambient r m hargs hmsg
  obtain ⟨f1, f2, f3, f4⟩ := applyExceptionClause_event_fields fmtExc ambient r
    { timestamp := ts r, level := getLevelName r.levelno, messageTemplate := m,
      properties := addArgs (getGlobalLogProperties g r.name) 0 r.args, exception := none }
  refine ⟨(applyExceptionClause fmtExc ambient r
      { timestamp := ts r, level := getLevelName r.levelno, messageTemplate := m,
        properties := addArgs (getGlobalLogProperties g r.name) 0 r.args,
        exception := none }).1,
    (applyExceptionClause fmtExc ambient r
      { timestamp := ts r, level := getLevelName r.levelno, messageTemplate := m,
        properties := addArgs (getGlobalLogProperties g r.name) 0 r.args,
        exception := none }).2, hb, f3, f4, ?_, ?_⟩
  · intro k hk
    rw [f4]
    refine dictLookup_addArgs_notIdx r.args _ 0 k (fun j hj => ?_)
    rw [Nat.zero_add]
    exact hk j hj
  · rw [f4]
    have := dictLookup_addArgs_lastIdx r.args (getGlobalLogProperties g r.name) 0 hargs
    rwa [Nat.zero_add] at this

/-- Witness for C1 at the record of `log(INFO, "x=%s", 42)`. -/
theorem c1_positional_witness :
    (buildEventData [("G", Value.int 9)] tsT feE false c1Record).map
      (fun p => p.1.messageTemplate) = some "x=42" ∧
    (buildEventData [("G", Value.int 9)] tsT feE false c1Record).map
      (fun p => dictLookup p.1.properties "0") = some (some (Value.int 42)) ∧
    (buildEventData [("G", Value.int 9)] tsT feE false c1Record).map
      (fun p => dictLookup p.1.properties "G") = some (some (Value.int 9)) := by
  obtain ⟨ev, r2, hb, hmt, hprops, hother, hlast⟩ :=
    c1_positional_amended [("G", Value.int 9)] tsT feE false c1Record "x=42"
      (by decide) (by decide)
  rw [hb]
  simp only [Option.map_some']
  refine ⟨by rw [hmt], ?_, ?_⟩
  · rw [show ("0" : String) = Nat.repr (c1Record.args.length - 1) from rfl, hlast]
    rfl
  · rw [hother "G" (by decide)]
    rfl

end Seqlog
